import Mathlib

/-!
Shallow embedding of the GPG secrets-engine key path (src/gpg/path_keys.go)
of the vault-gpg-plugin repository, together with proofs about its key
normalization, storage and error behaviour.

OpenPGP packets are modelled by their serialized wire bytes: the library
calls `PrivateKey.Serialize`, `UserId.Serialize`, `Signature.Serialize`,
`PublicKey.Serialize` each write the packet's byte representation to the
output writer, which in every call site of this file is an in-memory
`bytes.Buffer` that never fails, so packet serialization is modelled as a
pure append of the packet's bytes.  External collaborators — the keyring
parsers (`openpgp.ReadKeyRing` / `ReadArmoredKeyRing`), the fresh key
generator (`openpgp.NewEntity` with `Entity.SerializePrivate`), and the
`logical.Storage` backend — are parameters of the embedded handlers, as
they are interfaces / library calls in the Go source.
-/

namespace VaultGpg

/-- Wire bytes of a serialized OpenPGP private-key packet. -/
structure PrivateKey where
  serialized : List Nat
deriving DecidableEq

/-- Wire bytes of a serialized OpenPGP signature packet. -/
structure Signature where
  serialized : List Nat
deriving DecidableEq

/-- Wire bytes of a serialized OpenPGP user-ID packet. -/
structure UserId where
  serialized : List Nat
deriving DecidableEq

/-- An OpenPGP public key: its fixed-length fingerprint (Go `[20]byte`)
and the wire bytes of its serialized public-key packet. -/
structure PublicKey where
  fingerprint : List Nat
  serialized : List Nat
deriving DecidableEq

/-- An identity bound to an entity: user-ID packet, the self-signature
over it, and any further signatures (Go `openpgp.Identity`). -/
structure Identity where
  userId : UserId
  selfSignature : Signature
  signatures : List Signature
deriving DecidableEq

/-- A subkey: public part, optional private part, and the binding
signature from the primary key (Go `openpgp.Subkey`). -/
structure Subkey where
  publicKey : PublicKey
  privateKey : Option PrivateKey
  sig : Signature
deriving DecidableEq

/-- An OpenPGP entity (Go `openpgp.Entity`): primary key pair (private
part optional), identity bindings, and subkeys.  The Go `Identities`
field is a map; its iteration sequence is modelled as a list. -/
structure Entity where
  primaryKey : PublicKey
  privateKey : Option PrivateKey
  identities : List Identity
  subkeys : List Subkey
deriving DecidableEq

/-- Concatenated serialization of a list of packets under `f`. -/
def packetsOf (f : α → List Nat) : List α → List Nat
  | [] => []
  | x :: xs => f x ++ packetsOf f xs

/-- Bytes contributed by an optional private key: its packet if present,
nothing otherwise. -/
def optKeyBytes : Option PrivateKey → List Nat
  | none => []
  | some pk => pk.serialized

/-- Bytes an identity contributes to the private serialization: its
user-ID packet followed by its existing self-signature packet. -/
def identityPackets (i : Identity) : List Nat :=
  i.userId.serialized ++ i.selfSignature.serialized

/-- Bytes a subkey contributes to the private serialization: its private
key packet if present, followed by its existing binding signature. -/
def subkeyPrivatePackets (s : Subkey) : List Nat :=
  optKeyBytes s.privateKey ++ s.sig.serialized

/-- Embedding of `serializePrivateWithoutSigning` (path_keys.go:112-151).
The Go function writes to an `io.Writer`; the model returns the bytes
written together with the returned error (`none` = nil error).  The
buffer and the `foundPrivateKey` flag are threaded through the two loops
exactly as in the source. -/
def serializePrivateWithoutSigning (e : Entity) : List Nat × Option String :=
  let start : List Nat × Bool :=
    match e.privateKey with
    | some pk => (pk.serialized, true)
    | none => ([], false)
  let afterIdents : List Nat :=
    e.identities.foldl
      (fun buf ident => buf ++ ident.userId.serialized ++ ident.selfSignature.serialized)
      start.1
  let afterSubkeys : List Nat × Bool :=
    e.subkeys.foldl
      (fun acc subkey =>
        match subkey.privateKey with
        | some pk => (acc.1 ++ pk.serialized ++ subkey.sig.serialized, true)
        | none => (acc.1 ++ subkey.sig.serialized, acc.2))
      (afterIdents, start.2)
  if afterSubkeys.2 then (afterSubkeys.1, none)
  else (afterSubkeys.1, some "No private key has been found")

theorem foldl_idents (l : List Identity) (b : List Nat) :
    l.foldl
      (fun buf ident => buf ++ ident.userId.serialized ++ ident.selfSignature.serialized) b
      = b ++ packetsOf identityPackets l := by
  induction l generalizing b with
  | nil => simp [packetsOf]
  | cons x xs ih =>
    simp only [List.foldl_cons]
    rw [ih]
    simp [packetsOf, identityPackets, List.append_assoc]

theorem foldl_subkeys (l : List Subkey) (b : List Nat) (fl : Bool) :
    l.foldl
      (fun acc subkey =>
        match subkey.privateKey with
        | some pk => (acc.1 ++ pk.serialized ++ subkey.sig.serialized, true)
        | none => (acc.1 ++ subkey.sig.serialized, acc.2))
      (b, fl)
      = (b ++ packetsOf subkeyPrivatePackets l,
         fl || l.any (fun sk => sk.privateKey.isSome)) := by
  induction l generalizing b fl with
  | nil => simp [packetsOf]
  | cons x xs ih =>
    cases h : x.privateKey with
    | none =>
      simp only [List.foldl_cons, h, List.any_cons]
      rw [ih]
      simp [packetsOf, subkeyPrivatePackets, optKeyBytes, h, List.append_assoc]
    | some pk =>
      simp only [List.foldl_cons, h, List.any_cons]
      rw [ih]
      simp [packetsOf, subkeyPrivatePackets, optKeyBytes, h, List.append_assoc]

theorem any_isSome_eq_false_iff (l : List Subkey) :
    (l.any (fun sk => sk.privateKey.isSome) = false) ↔ ∀ sk ∈ l, sk.privateKey = none := by
  rw [List.any_eq_false]
  constructor
  · intro h sk hsk
    exact Option.not_isSome_iff_eq_none.mp (by simpa using h sk hsk)
  · intro h sk hsk
    simp [h sk hsk]

theorem serializePrivate_eq (e : Entity) :
    serializePrivateWithoutSigning e
      = (optKeyBytes e.privateKey ++ packetsOf identityPackets e.identities
           ++ packetsOf subkeyPrivatePackets e.subkeys,
         if e.privateKey.isSome || e.subkeys.any (fun sk => sk.privateKey.isSome)
         then none else some "No private key has been found") := by
  cases hpk : e.privateKey with
  | none =>
    simp only [serializePrivateWithoutSigning, hpk, foldl_idents, foldl_subkeys]
    simp [optKeyBytes, List.append_assoc]
    split <;> rfl
  | some pk =>
    simp only [serializePrivateWithoutSigning, hpk, foldl_idents, foldl_subkeys]
    simp [optKeyBytes, List.append_assoc]

theorem noPrivate_flag_iff (e : Entity) :
    ((e.privateKey.isSome || e.subkeys.any fun sk => sk.privateKey.isSome) = false)
      ↔ e.privateKey = none ∧ ∀ sk ∈ e.subkeys, sk.privateKey = none := by
  rw [Bool.or_eq_false_iff]
  constructor
  · rintro ⟨h1, h2⟩
    exact ⟨Option.not_isSome_iff_eq_none.mp (by simp [h1]),
      (any_isSome_eq_false_iff _).mp h2⟩
  · rintro ⟨h1, h2⟩
    exact ⟨by simp [h1], (any_isSome_eq_false_iff _).mpr h2⟩

/-- C1: `serializePrivateWithoutSigning` writes, in order, the primary
private key packet if present, then for each identity its user-ID packet
followed by its existing self-signature packet, then for each subkey its
private key packet if present followed by its existing binding-signature
packet — all copied verbatim from the entity, never recomputed — and it
returns a (non-nil) error exactly when neither the primary key nor any
subkey carries private material. -/
theorem serializePrivate_order_and_error (e : Entity) :
    (serializePrivateWithoutSigning e).1
      = optKeyBytes e.privateKey ++ packetsOf identityPackets e.identities
          ++ packetsOf subkeyPrivatePackets e.subkeys
    ∧ ((serializePrivateWithoutSigning e).2.isSome
        ↔ e.privateKey = none ∧ ∀ sk ∈ e.subkeys, sk.privateKey = none) := by
  rw [serializePrivate_eq]
  refine ⟨rfl, ?_⟩
  by_cases h : (e.privateKey.isSome || e.subkeys.any fun sk => sk.privateKey.isSome) = true
  · rw [← noPrivate_flag_iff]
    simp [h]
  · rw [← noPrivate_flag_iff]
    simp only [Bool.not_eq_true] at h
    simp [h]

/-! Hex encoding (Go `encoding/hex`, used for the fingerprint field). -/

/-- Lookup table of Go `encoding/hex` (`const hextable = "0123456789abcdef"`). -/
def hexTable : List Char := "0123456789abcdef".toList

/-- Two hex characters of one byte, high nibble first (Go `hex.Encode`). -/
def hexEncodeByte (b : Nat) : List Char :=
  [hexTable.getD (b / 16 % 16) '0', hexTable.getD (b % 16) '0']

/-- Embedding of Go `hex.EncodeToString`. -/
def hexEncodeToString (bs : List Nat) : String :=
  String.mk (List.flatten (bs.map hexEncodeByte))

theorem getD_mem_of_lt (l : List Char) (i : Nat) (d : Char) (h : i < l.length) :
    l.getD i d ∈ l := by
  induction l generalizing i with
  | nil => simp at h
  | cons x xs ih =>
    cases i with
    | zero => simp [List.getD]
    | succ n =>
      have hn : n < xs.length := by simpa using h
      have := ih n hn
      simp only [List.getD] at *
      simp only [List.get?_cons_succ]
      right
      exact this

theorem hexEncodeByte_mem (b : Nat) : ∀ c ∈ hexEncodeByte b, c ∈ hexTable := by
  intro c hc
  simp only [hexEncodeByte, List.mem_cons, List.not_mem_nil, or_false] at hc
  rcases hc with h | h <;> subst h <;>
    exact getD_mem_of_lt _ _ _ (by simp [hexTable]; omega)

/-- Every character of a hex-encoded string is a lowercase hex digit. -/
theorem hexEncodeToString_lowercase (bs : List Nat) :
    ∀ c ∈ (hexEncodeToString bs).data, c ∈ hexTable := by
  intro c hc
  simp only [hexEncodeToString, String.data] at hc
  rw [List.mem_flatten] at hc
  obtain ⟨l, hl, hcl⟩ := hc
  rw [List.mem_map] at hl
  obtain ⟨b, _, rfl⟩ := hl
  exact hexEncodeByte_mem b c hcl

/-! ASCII armor (x/crypto `openpgp/armor`): base64 body in 64-column
lines plus a CRC-24 checksum line, between begin/end type lines. -/

/-- Standard base64 alphabet (Go `encoding/base64` `encodeStd`). -/
def base64Table : List Char :=
  "ABCDEFGHIJKLMNOPQRSTUVWXYZabcdefghijklmnopqrstuvwxyz0123456789+/".toList

def base64Char (n : Nat) : Char := base64Table.getD (n % 64) 'A'

/-- Base64 of a byte list, with `=` padding on a final partial group. -/
def base64Chunks : List Nat → List Char
  | [] => []
  | [b0] => [base64Char (b0 / 4), base64Char (b0 % 4 * 16), '=', '=']
  | [b0, b1] =>
      [base64Char (b0 / 4), base64Char (b0 % 4 * 16 + b1 / 16),
       base64Char (b1 % 16 * 4), '=']
  | b0 :: b1 :: b2 :: rest =>
      base64Char (b0 / 4) :: base64Char (b0 % 4 * 16 + b1 / 16) ::
      base64Char (b1 % 16 * 4 + b2 / 64) :: base64Char (b2 % 64) ::
      base64Chunks rest

/-- CRC-24 generator polynomial (RFC 4880, x/crypto `crc24Poly`). -/
def crc24Poly : Nat := 0x1864cfb

/-- CRC-24 initial value (x/crypto `crc24Init`). -/
def crc24Init : Nat := 0xb704ce

/-- One shift step of the CRC-24 inner loop. -/
def crc24Round (crc : Nat) : Nat :=
  let c := crc * 2
  if c / 2 ^ 24 % 2 = 1 then c ^^^ crc24Poly else c

/-- CRC-24 update by one byte: xor into bits 16..23, then 8 shift steps. -/
def crc24Update (crc b : Nat) : Nat :=
  (List.range 8).foldl (fun c _ => crc24Round c) (crc ^^^ b % 256 * 65536)

/-- CRC-24 checksum of a byte list. -/
def crc24 (data : List Nat) : Nat :=
  data.foldl crc24Update crc24Init % 2 ^ 24

/-- The three checksum bytes written after the armor body, big-endian. -/
def crc24Bytes (data : List Nat) : List Nat :=
  [crc24 data / 65536 % 256, crc24 data / 256 % 256, crc24 data % 256]

/-- Split a byte list into 48-byte groups; each group yields one
64-character base64 line (the armor `lineBreaker` wraps at 64 columns). -/
def chunk48 : List Nat → List (List Nat)
  | [] => []
  | b :: bs => (b :: bs).take 48 :: chunk48 ((b :: bs).drop 48)
termination_by l => l.length
decreasing_by simp; omega

/-- Newline-terminated base64 body lines of the armor block. -/
def armorLines (data : List Nat) : String :=
  String.join ((chunk48 data).map (fun c => String.mk (base64Chunks c) ++ "\n"))

/-- Embedding of x/crypto `armor.Encode` (nil headers) followed by the
writes of `Close`: type line, blank line, body, checksum line, end line. -/
def armorEncode (blockType : String) (data : List Nat) : String :=
  "-----BEGIN " ++ blockType ++ "-----\n\n"
    ++ armorLines data
    ++ "=" ++ String.mk (base64Chunks (crc24Bytes data))
    ++ "\n-----END " ++ blockType ++ "-----\n"

/-- Go `openpgp.PublicKeyType`. -/
def publicKeyType : String := "PGP PUBLIC KEY BLOCK"

/-! Public-side serialization (x/crypto `Entity.Serialize`): primary
public key, then per identity its user-ID packet, self-signature and
other signatures, then per subkey its public key and binding signature.
No private key packet is ever written on this path. -/

/-- Embedding of x/crypto `Entity.Serialize`, loops threaded over an
in-memory buffer exactly as in the library source. -/
def entitySerialize (e : Entity) : List Nat :=
  let buf := e.primaryKey.serialized
  let buf := e.identities.foldl
    (fun b ident =>
      ident.signatures.foldl (fun bb s => bb ++ s.serialized)
        (b ++ ident.userId.serialized ++ ident.selfSignature.serialized))
    buf
  e.subkeys.foldl (fun b sk => b ++ sk.publicKey.serialized ++ sk.sig.serialized) buf

/-- Packets one identity contributes to the public serialization. -/
def identityPublicPackets (i : Identity) : List Nat :=
  i.userId.serialized ++ i.selfSignature.serialized
    ++ packetsOf (fun s => s.serialized) i.signatures

/-- Packets one subkey contributes to the public serialization. -/
def subkeyPublicPackets (s : Subkey) : List Nat :=
  s.publicKey.serialized ++ s.sig.serialized

theorem foldl_append_packets (f : α → List Nat) (l : List α) (b : List Nat) :
    l.foldl (fun buf x => buf ++ f x) b = b ++ packetsOf f l := by
  induction l generalizing b with
  | nil => simp [packetsOf]
  | cons x xs ih =>
    simp only [List.foldl_cons]
    rw [ih]
    simp [packetsOf, List.append_assoc]

theorem foldl_idents_public (l : List Identity) (b : List Nat) :
    l.foldl
      (fun b ident =>
        ident.signatures.foldl (fun bb s => bb ++ s.serialized)
          (b ++ ident.userId.serialized ++ ident.selfSignature.serialized))
      b
      = b ++ packetsOf identityPublicPackets l := by
  induction l generalizing b with
  | nil => simp [packetsOf]
  | cons x xs ih =>
    simp only [List.foldl_cons]
    rw [foldl_append_packets, ih]
    simp [packetsOf, identityPublicPackets, List.append_assoc]

theorem foldl_subkeys_public (l : List Subkey) (b : List Nat) :
    l.foldl (fun b sk => b ++ sk.publicKey.serialized ++ sk.sig.serialized) b
      = b ++ packetsOf subkeyPublicPackets l := by
  induction l generalizing b with
  | nil => simp [packetsOf]
  | cons x xs ih =>
    simp only [List.foldl_cons]
    rw [ih]
    simp [packetsOf, subkeyPublicPackets, List.append_assoc]

theorem entitySerialize_eq (e : Entity) :
    entitySerialize e
      = e.primaryKey.serialized ++ packetsOf identityPublicPackets e.identities
          ++ packetsOf subkeyPublicPackets e.subkeys := by
  simp only [entitySerialize]
  rw [foldl_idents_public, foldl_subkeys_public]

/-- Drop all private key material from an entity, keeping every public
component unchanged. -/
def stripPrivate (e : Entity) : Entity :=
  { e with privateKey := none
           subkeys := e.subkeys.map (fun sk => { sk with privateKey := none }) }

theorem entitySerialize_stripPrivate (e : Entity) :
    entitySerialize (stripPrivate e) = entitySerialize e := by
  rw [entitySerialize_eq, entitySerialize_eq]
  simp only [stripPrivate]
  congr 1
  induction e.subkeys with
  | nil => rfl
  | cons x xs ih => simp [packetsOf, subkeyPublicPackets, ih]

/-! Storage collaborator and handler embeddings. -/

/-- Go `keyEntry` (path_keys.go:254-257): the stored record — the
canonical serialized key bytes and the exportable flag, nothing else. -/
structure keyEntry where
  SerializedKey : List Nat
  Exportable : Bool
deriving DecidableEq

/-- Raw value held by one storage entry: either the JSON encoding of a
`keyEntry`, or bytes on which `DecodeJSON` fails. -/
inductive StoredValue where
  | json (entry : keyEntry)
  | corrupt (msg : String)
deriving DecidableEq

/-- Embedding of `entry.DecodeJSON(&result)` on a storage entry. -/
def decodeJSON : StoredValue → Except String keyEntry
  | .json entry => .ok entry
  | .corrupt msg => .error msg

/-- The `logical.Storage` interface as the handlers use it: each call
may fail with an error and may change the collaborator's state `σ`. -/
structure Storage (σ : Type) where
  get : String → σ → Except String (Option StoredValue) × σ
  put : String → StoredValue → σ → Except String Unit × σ
  delete : String → σ → Except String Unit × σ

/-- Concrete key-value storage state: an association list from storage
keys to raw values, most recent binding first. -/
abbrev KVState := List (String × StoredValue)

/-- Lookup in the concrete key-value store. -/
def kvLookup (k : String) (st : KVState) : Option StoredValue :=
  (st.find? (fun p => p.1 == k)).map (fun p => p.2)

/-- The concrete storage collaborator of §6: plain per-key get, put and
delete that never fail. -/
def kvStorage : Storage KVState where
  get := fun k st => (.ok (kvLookup k st), st)
  put := fun k v st => (.ok (), (k, v) :: st.filter (fun p => p.1 != k))
  delete := fun k st => (.ok (), st.filter (fun p => p.1 != k))

/-- Result of one handler call: Go `(*logical.Response, error)`, plus a
distinguished outcome for a runtime panic. -/
inductive Outcome (α : Type) where
  | ok (a : α)
  | noResp
  | errResp (msg : String)
  | fault (msg : String)
  | panicked
deriving DecidableEq

/-- Payload of a successful read response (path_keys.go:174-180). -/
structure ReadData where
  fingerprint : String
  public_key : String
  exportable : Bool
deriving DecidableEq

/-- Embedding of `backend.key` (path_keys.go:85-100): storage get under
the `key/` prefix followed by JSON decoding. -/
def key {σ : Type} (S : Storage σ) (name : String) (st : σ) :
    Except String (Option keyEntry) × σ :=
  match S.get ("key/" ++ name) st with
  | (.error e, st') => (.error e, st')
  | (.ok none, st') => (.ok none, st')
  | (.ok (some v), st') =>
    match decodeJSON v with
    | .error e => (.error e, st')
    | .ok entry => (.ok (some entry), st')

/-- Result of `backend.entity`: entity, error, or runtime panic. -/
inductive EntityResult where
  | ok (e : Entity)
  | err (msg : String)
  | panicked
deriving DecidableEq

/-- Embedding of `backend.entity` (path_keys.go:102-110): parse the
stored bytes as a keyring (`openpgp.ReadKeyRing`, a parameter) and
return element 0 of the result unchecked — an empty list under a nil
error makes the `el[0]` access a runtime panic. -/
def entity (parseKeyRing : List Nat → Except String (List Entity)) (entry : keyEntry) :
    EntityResult :=
  match parseKeyRing entry.SerializedKey with
  | .error e => .err e
  | .ok [] => .panicked
  | .ok (e0 :: _) => .ok e0

/-- Embedding of `pathKeyRead` (path_keys.go:153-181): load and decode
the record, parse the entity, then answer with the hex fingerprint of
the primary key, the armored public serialization, and the stored
exportable flag. -/
def pathKeyRead {σ : Type} (S : Storage σ)
    (parseKeyRing : List Nat → Except String (List Entity))
    (name : String) (st : σ) : Outcome ReadData × σ :=
  match key S name st with
  | (.error e, st') => (.fault e, st')
  | (.ok none, st') => (.noResp, st')
  | (.ok (some entry), st') =>
    match entity parseKeyRing entry with
    | .err e => (.fault e, st')
    | .panicked => (.panicked, st')
    | .ok ent =>
      (.ok { fingerprint := hexEncodeToString ent.primaryKey.fingerprint
             public_key := armorEncode publicKeyType (entitySerialize ent)
             exportable := entry.Exportable }, st')

/-- Field values of a create request after `data.Get` applied the
schema defaults (path_keys.go:184-191). -/
structure CreateArgs where
  name : String
  realName : String
  email : String
  comment : String
  keyBits : Int
  exportable : Bool
  generate : Bool
  key : String
deriving DecidableEq

/-- External effects a create call can perform, in order: invoking the
key generator, invoking the armored keyring parser, writing to storage. -/
inductive Effect where
  | genKey
  | parseKeyRing
  | storagePut (k : String)
deriving DecidableEq

/-- Shared tail of `pathKeyCreate` (path_keys.go:224-234): build the
JSON storage entry (`logical.StorageEntryJSON`, which cannot fail on
this two-field struct) and call `Storage.Put`. -/
def putKeyEntry {σ : Type} (S : Storage σ) (a : CreateArgs) (buf : List Nat)
    (st : σ) (tr : List Effect) : Outcome Unit × σ × List Effect :=
  match S.put ("key/" ++ a.name)
      (.json { SerializedKey := buf, Exportable := a.exportable }) st with
  | (.error e, st') => (.fault e, st', tr ++ [.storagePut ("key/" ++ a.name)])
  | (.ok _, st') => (.noResp, st', tr ++ [.storagePut ("key/" ++ a.name)])

/-- Embedding of `pathKeyCreate` (path_keys.go:183-235).  External
calls are parameters: `newEntity` stands for `openpgp.NewEntity` under
`packet.Config{RSABits: keyBits}` (argument order name, comment, email
as in the source), `serializePrivateFresh` for `Entity.SerializePrivate`
on the freshly generated entity, `parseArmored` for
`openpgp.ReadArmoredKeyRing`.  Besides the handler outcome and the new
storage state, the model records the trace of external effects. -/
def pathKeyCreate {σ : Type} (S : Storage σ)
    (newEntity : String → String → String → Int → Except String Entity)
    (serializePrivateFresh : Entity → Except String (List Nat))
    (parseArmored : String → Except String (List Entity))
    (a : CreateArgs) (st : σ) : Outcome Unit × σ × List Effect :=
  match a.generate with
  | true =>
    if a.keyBits < 2048 then
      (.errResp "Keys < 2048 bits are unsafe and not supported", st, [])
    else
      match newEntity a.realName a.comment a.email a.keyBits with
      | .error e => (.fault e, st, [.genKey])
      | .ok ent =>
        match serializePrivateFresh ent with
        | .error e => (.fault e, st, [.genKey])
        | .ok buf => putKeyEntry S a buf st [.genKey]
  | false =>
    if a.key = "" then
      (.errResp "the key value is required for generated keys", st, [])
    else
      match parseArmored a.key with
      | .error e => (.errResp e, st, [.parseKeyRing])
      | .ok [] => (.panicked, st, [.parseKeyRing])
      | .ok (e0 :: _) =>
        match serializePrivateWithoutSigning e0 with
        | (_, some _) =>
          (.errResp "the key could not be serialized, is a private key present?",
           st, [.parseKeyRing])
        | (buf, none) => putKeyEntry S a buf st [.parseKeyRing]

/-- Embedding of `pathKeyDelete` (path_keys.go:237-243): one storage
delete under the `key/` prefix; a nil collaborator error yields the
`(nil, nil)` outcome. -/
def pathKeyDelete {σ : Type} (S : Storage σ) (name : String) (st : σ) :
    Outcome Unit × σ :=
  match S.delete ("key/" ++ name) st with
  | (.error e, st') => (.fault e, st')
  | (.ok _, st') => (.noResp, st')

/-! Concrete fixtures used to instantiate the theorems below. -/

/-- A concrete signature packet. -/
def testSig : Signature := ⟨[7, 8]⟩

/-- A concrete user-ID packet. -/
def testUid : UserId := ⟨[5, 6]⟩

/-- A concrete public key with a 20-byte fingerprint. -/
def testPub : PublicKey :=
  ⟨[0, 1, 2, 3, 4, 5, 6, 7, 8, 9, 10, 11, 12, 13, 14, 15, 16, 17, 18, 19], [3, 4]⟩

/-- A concrete private key packet. -/
def testPriv : PrivateKey := ⟨[9]⟩

/-- A concrete entity carrying private material. -/
def testEntityA : Entity :=
  { primaryKey := testPub
    privateKey := some testPriv
    identities := [⟨testUid, testSig, []⟩]
    subkeys := [] }

/-- A second concrete entity, public-only. -/
def testEntityB : Entity :=
  { primaryKey := ⟨[11], [12]⟩, privateKey := none, identities := [], subkeys := [] }

/-- A concrete stored record. -/
def testEntry : keyEntry := ⟨[1], true⟩

/-- A generator oracle that always succeeds with `testEntityA`. -/
def genOracle : String → String → String → Int → Except String Entity :=
  fun _ _ _ _ => .ok testEntityA

/-- A fresh-serialization oracle that always succeeds. -/
def serOracle : Entity → Except String (List Nat) := fun _ => .ok [1, 2]

/-- A keyring-parser oracle returning a single entity. -/
def parserOracle : String → Except String (List Entity) := fun _ => .ok [testEntityA]

/-- Create arguments for a generate request with the given key size. -/
def argsGen (bits : Int) : CreateArgs :=
  { name := "k", realName := "r", email := "e", comment := "c"
    keyBits := bits, exportable := true, generate := true, key := "" }

/-- Create arguments for an import request with the given key text. -/
def argsImport (k : String) : CreateArgs :=
  { name := "k", realName := "", email := "", comment := ""
    keyBits := 2048, exportable := true, generate := false, key := k }

/-- A storage collaborator whose every call fails with `m`. -/
def failingStorage (m : String) : Storage Unit where
  get := fun _ s => (.error m, s)
  put := fun _ _ s => (.error m, s)
  delete := fun _ s => (.error m, s)

/-- C2: the read path (`backend.entity`) and the import path
(`pathKeyCreate` with generate=false) operate on only the first entity
of the parsed keyring: the read path returns entity 0 whatever follows
it, and the create outcome is unchanged when the later entities change —
they are silently discarded with no error and no warning. -/
theorem first_entity_only {σ : Type} (S : Storage σ)
    (newEntity : String → String → String → Int → Except String Entity)
    (serializePrivateFresh : Entity → Except String (List Nat))
    (p : List Nat → Except String (List Entity))
    (q q' : String → Except String (List Entity))
    (entry : keyEntry) (e0 : Entity) (rest rest' : List Entity)
    (a : CreateArgs) (st : σ)
    (hp : p entry.SerializedKey = .ok (e0 :: rest))
    (hq : q a.key = .ok (e0 :: rest))
    (hq' : q' a.key = .ok (e0 :: rest'))
    (hgen : a.generate = false) :
    entity p entry = .ok e0
    ∧ pathKeyCreate S newEntity serializePrivateFresh q a st
        = pathKeyCreate S newEntity serializePrivateFresh q' a st := by
  refine ⟨by simp [entity, hp], ?_⟩
  by_cases hk : a.key = ""
  · simp [pathKeyCreate, hgen, hk]
  · simp [pathKeyCreate, hgen, hk, hq, hq']

theorem first_entity_only_check :
    entity (fun _ => .ok [testEntityA, testEntityB]) testEntry = .ok testEntityA
    ∧ pathKeyCreate kvStorage genOracle serOracle
        (fun _ => .ok [testEntityA, testEntityB]) (argsImport "armor") []
      = pathKeyCreate kvStorage genOracle serOracle
        (fun _ => .ok [testEntityA]) (argsImport "armor") [] :=
  first_entity_only kvStorage genOracle serOracle
    (fun _ => .ok [testEntityA, testEntityB])
    (fun _ => .ok [testEntityA, testEntityB]) (fun _ => .ok [testEntityA])
    testEntry testEntityA [testEntityB] [] (argsImport "armor") []
    rfl rfl rfl rfl

/-- C3: a generate request with key_bits below 2048 answers the
caller-visible undersized-key error response, with no generation and no
storage write (empty effect trace, state unchanged); with key_bits
equal to 2048 the size check passes — the generator is invoked and no
error response is produced. -/
theorem create_key_size_floor {σ : Type} (S : Storage σ)
    (newEntity : String → String → String → Int → Except String Entity)
    (serializePrivateFresh : Entity → Except String (List Nat))
    (parseArmored : String → Except String (List Entity))
    (a : CreateArgs) (st : σ)
    (hgen : a.generate = true) :
    (a.keyBits < 2048 →
      pathKeyCreate S newEntity serializePrivateFresh parseArmored a st
        = (.errResp "Keys < 2048 bits are unsafe and not supported", st, []))
    ∧ (a.keyBits = 2048 →
      Effect.genKey ∈ (pathKeyCreate S newEntity serializePrivateFresh parseArmored a st).2.2
      ∧ ∀ m, (pathKeyCreate S newEntity serializePrivateFresh parseArmored a st).1
          ≠ .errResp m) := by
  constructor
  · intro hlt
    simp [pathKeyCreate, hgen, hlt]
  · intro heq
    have hlt : ¬a.keyBits < 2048 := by omega
    cases hg : newEntity a.realName a.comment a.email a.keyBits with
    | error m => simp [pathKeyCreate, hgen, hlt, hg]
    | ok ent =>
      cases hs : serializePrivateFresh ent with
      | error m => simp [pathKeyCreate, hgen, hlt, hg, hs]
      | ok buf =>
        rcases hput : S.put ("key/" ++ a.name)
            (.json { SerializedKey := buf, Exportable := a.exportable }) st with ⟨r, st'⟩
        cases r with
        | error m => simp [pathKeyCreate, hgen, hlt, hg, hs, putKeyEntry, hput]
        | ok u => simp [pathKeyCreate, hgen, hlt, hg, hs, putKeyEntry, hput]

theorem create_key_size_floor_check :
    pathKeyCreate kvStorage genOracle serOracle parserOracle (argsGen 1024) []
      = (.errResp "Keys < 2048 bits are unsafe and not supported", [], [])
    ∧ (Effect.genKey
        ∈ (pathKeyCreate kvStorage genOracle serOracle parserOracle (argsGen 2048) []).2.2
      ∧ ∀ m, (pathKeyCreate kvStorage genOracle serOracle parserOracle (argsGen 2048) []).1
          ≠ .errResp m) :=
  ⟨(create_key_size_floor kvStorage genOracle serOracle parserOracle (argsGen 1024) []
      rfl).1 (by decide),
   (create_key_size_floor kvStorage genOracle serOracle parserOracle (argsGen 2048) []
      rfl).2 rfl⟩

/-- C4: an import request (generate=false) with an empty key string
answers the caller-visible missing-key error response with an empty
effect trace — no parsing and no storage write happen — and the storage
state is unchanged. -/
theorem create_missing_key {σ : Type} (S : Storage σ)
    (newEntity : String → String → String → Int → Except String Entity)
    (serializePrivateFresh : Entity → Except String (List Nat))
    (parseArmored : String → Except String (List Entity))
    (a : CreateArgs) (st : σ)
    (hgen : a.generate = false) (hk : a.key = "") :
    pathKeyCreate S newEntity serializePrivateFresh parseArmored a st
      = (.errResp "the key value is required for generated keys", st, []) := by
  simp [pathKeyCreate, hgen, hk]

theorem create_missing_key_check :
    pathKeyCreate kvStorage genOracle serOracle parserOracle (argsImport "") []
      = (.errResp "the key value is required for generated keys", [], []) :=
  create_missing_key kvStorage genOracle serOracle parserOracle (argsImport "") []
    rfl rfl

/-- C5: creation is all-or-nothing.  Whenever one of the pre-storage
steps fails — undersized key, missing key, unparseable armor, no
private material in the imported key, or a generation / fresh-encoding
error — the handler answers an error outcome (error response or
propagated fault), its effect trace contains no storage put, and the
storage state is unchanged. -/
theorem create_all_or_nothing {σ : Type} (S : Storage σ)
    (newEntity : String → String → String → Int → Except String Entity)
    (serializePrivateFresh : Entity → Except String (List Nat))
    (parseArmored : String → Except String (List Entity))
    (a : CreateArgs) (st : σ)
    (hfail :
      (a.generate = true ∧ a.keyBits < 2048)
      ∨ (a.generate = true ∧ ¬a.keyBits < 2048
          ∧ ∃ m, newEntity a.realName a.comment a.email a.keyBits = .error m)
      ∨ (a.generate = true ∧ ¬a.keyBits < 2048
          ∧ ∃ ent m, newEntity a.realName a.comment a.email a.keyBits = .ok ent
              ∧ serializePrivateFresh ent = .error m)
      ∨ (a.generate = false ∧ a.key = "")
      ∨ (a.generate = false ∧ a.key ≠ "" ∧ ∃ m, parseArmored a.key = .error m)
      ∨ (a.generate = false ∧ a.key ≠ ""
          ∧ ∃ e0 rest, parseArmored a.key = .ok (e0 :: rest)
              ∧ (serializePrivateWithoutSigning e0).2.isSome)) :
    (∃ m, (pathKeyCreate S newEntity serializePrivateFresh parseArmored a st).1 = .errResp m
        ∨ (pathKeyCreate S newEntity serializePrivateFresh parseArmored a st).1 = .fault m)
    ∧ (pathKeyCreate S newEntity serializePrivateFresh parseArmored a st).2.1 = st
    ∧ ∀ k, Effect.storagePut k
        ∉ (pathKeyCreate S newEntity serializePrivateFresh parseArmored a st).2.2 := by
  rcases hfail with ⟨hg, hlt⟩ | ⟨hg, hlt, m, hm⟩ | ⟨hg, hlt, ent, m, hent, hm⟩
    | ⟨hg, hk⟩ | ⟨hg, hk, m, hm⟩ | ⟨hg, hk, e0, rest, hp, hs⟩
  · simp [pathKeyCreate, hg, hlt]
  · simp [pathKeyCreate, hg, hlt, hm]
  · simp [pathKeyCreate, hg, hlt, hent, hm]
  · simp [pathKeyCreate, hg, hk]
  · simp [pathKeyCreate, hg, hk, hm]
  · rcases hsp : serializePrivateWithoutSigning e0 with ⟨buf, err⟩
    rw [hsp] at hs
    rcases err with _ | m
    · simp at hs
    · simp [pathKeyCreate, hg, hk, hp, hsp]

theorem create_all_or_nothing_check :
    (∃ m, (pathKeyCreate kvStorage genOracle serOracle parserOracle
            (argsImport "") []).1 = .errResp m
        ∨ (pathKeyCreate kvStorage genOracle serOracle parserOracle
            (argsImport "") []).1 = .fault m)
    ∧ (pathKeyCreate kvStorage genOracle serOracle parserOracle
        (argsImport "") []).2.1 = []
    ∧ ∀ k, Effect.storagePut k
        ∉ (pathKeyCreate kvStorage genOracle serOracle parserOracle
            (argsImport "") []).2.2 :=
  create_all_or_nothing kvStorage genOracle serOracle parserOracle (argsImport "") []
    (Or.inr (Or.inr (Or.inr (Or.inl ⟨rfl, rfl⟩))))

theorem hexEncodeToString_length (bs : List Nat) :
    (hexEncodeToString bs).length = 2 * bs.length := by
  induction bs with
  | nil => rfl
  | cons b rest ih =>
    simp only [hexEncodeToString, String.length, String.mk] at *
    simp [hexEncodeByte] at *
    omega

/-- C6: on a stored record that decodes and whose bytes parse, the read
response is exactly the hex fingerprint of the primary public key, the
armored public serialization, and the stored exportable flag unchanged;
the fingerprint text is lowercase hex of twice the fingerprint length
(40 characters for the fixed 20-byte fingerprint), and the armored body
depends only on the public components of the entity — stripping all
private key material leaves it unchanged. -/
theorem read_payload {σ : Type} (S : Storage σ)
    (p : List Nat → Except String (List Entity))
    (name : String) (st st' : σ) (v : StoredValue) (entry : keyEntry) (ent : Entity)
    (hget : S.get ("key/" ++ name) st = (.ok (some v), st'))
    (hdec : decodeJSON v = .ok entry)
    (hent : entity p entry = .ok ent) :
    pathKeyRead S p name st
      = (.ok { fingerprint := hexEncodeToString ent.primaryKey.fingerprint
               public_key := armorEncode publicKeyType (entitySerialize ent)
               exportable := entry.Exportable }, st')
    ∧ (∀ c ∈ (hexEncodeToString ent.primaryKey.fingerprint).data, c ∈ hexTable)
    ∧ entitySerialize (stripPrivate ent) = entitySerialize ent
    ∧ (ent.primaryKey.fingerprint.length = 20 →
        (hexEncodeToString ent.primaryKey.fingerprint).length = 40) := by
  refine ⟨?_, hexEncodeToString_lowercase _, entitySerialize_stripPrivate ent, ?_⟩
  · simp [pathKeyRead, key, hget, hdec, hent]
  · intro h20
    rw [hexEncodeToString_length, h20]

theorem read_payload_check :
    pathKeyRead kvStorage (fun _ => .ok [testEntityA]) "k"
        [("key/k", StoredValue.json testEntry)]
      = (.ok { fingerprint := hexEncodeToString testEntityA.primaryKey.fingerprint
               public_key := armorEncode publicKeyType (entitySerialize testEntityA)
               exportable := testEntry.Exportable },
         [("key/k", StoredValue.json testEntry)])
    ∧ (∀ c ∈ (hexEncodeToString testEntityA.primaryKey.fingerprint).data, c ∈ hexTable)
    ∧ entitySerialize (stripPrivate testEntityA) = entitySerialize testEntityA
    ∧ (testEntityA.primaryKey.fingerprint.length = 20 →
        (hexEncodeToString testEntityA.primaryKey.fingerprint).length = 40) :=
  read_payload kvStorage (fun _ => .ok [testEntityA]) "k"
    [("key/k", StoredValue.json testEntry)] [("key/k", StoredValue.json testEntry)]
    (StoredValue.json testEntry) testEntry testEntityA rfl rfl rfl

theorem pathKeyRead_kv_state (p : List Nat → Except String (List Entity))
    (name : String) (st : KVState) :
    (pathKeyRead kvStorage p name st).2 = st := by
  simp only [pathKeyRead, key, kvStorage]
  cases hv : kvLookup ("key/" ++ name) st with
  | none => simp
  | some v =>
    cases hd : decodeJSON v with
    | error m => simp [hd]
    | ok entry =>
      cases he : entity p entry with
      | ok ent => simp [hd, he]
      | err m => simp [hd, he]
      | panicked => simp [hd, he]

/-- C7: the read path is deterministic in the stored bytes — with the
concrete key-value collaborator a read leaves the store unchanged, so
two consecutive reads of the same record return the identical response
(in particular the identical fingerprint); and the fingerprint is
recomputed on each read from the entity decoded out of the stored
record's serialized bytes, not taken from any separately stored field. -/
theorem read_deterministic (p : List Nat → Except String (List Entity))
    (name : String) (st : KVState) :
    (pathKeyRead kvStorage p name st).2 = st
    ∧ pathKeyRead kvStorage p name ((pathKeyRead kvStorage p name st).2)
        = pathKeyRead kvStorage p name st
    ∧ (∀ entry ent, kvLookup ("key/" ++ name) st = some (.json entry) →
        entity p entry = .ok ent →
        (pathKeyRead kvStorage p name st).1
          = .ok { fingerprint := hexEncodeToString ent.primaryKey.fingerprint
                  public_key := armorEncode publicKeyType (entitySerialize ent)
                  exportable := entry.Exportable }) := by
  refine ⟨pathKeyRead_kv_state p name st, ?_, ?_⟩
  · rw [pathKeyRead_kv_state]
  · intro entry ent hv he
    simp [pathKeyRead, key, kvStorage, hv, decodeJSON, he]

theorem read_deterministic_check :
    (pathKeyRead kvStorage (fun _ => .ok [testEntityA]) "k"
        [("key/k", StoredValue.json testEntry)]).2
      = [("key/k", StoredValue.json testEntry)]
    ∧ pathKeyRead kvStorage (fun _ => .ok [testEntityA]) "k"
        ((pathKeyRead kvStorage (fun _ => .ok [testEntityA]) "k"
            [("key/k", StoredValue.json testEntry)]).2)
      = pathKeyRead kvStorage (fun _ => .ok [testEntityA]) "k"
          [("key/k", StoredValue.json testEntry)]
    ∧ (pathKeyRead kvStorage (fun _ => .ok [testEntityA]) "k"
        [("key/k", StoredValue.json testEntry)]).1
      = .ok { fingerprint := hexEncodeToString testEntityA.primaryKey.fingerprint
              public_key := armorEncode publicKeyType (entitySerialize testEntityA)
              exportable := testEntry.Exportable } :=
  ⟨(read_deterministic (fun _ => .ok [testEntityA]) "k"
      [("key/k", StoredValue.json testEntry)]).1,
   (read_deterministic (fun _ => .ok [testEntityA]) "k"
      [("key/k", StoredValue.json testEntry)]).2.1,
   (read_deterministic (fun _ => .ok [testEntityA]) "k"
      [("key/k", StoredValue.json testEntry)]).2.2 testEntry testEntityA rfl rfl⟩

/-- C8: reading a name with no stored record yields the no-payload,
no-error outcome, which is a distinct constructor from every payload,
fault and error-response outcome; a storage collaborator failure on get,
by contrast, is propagated as a fault carrying the collaborator's error. -/
theorem read_absent_vs_fault {σ : Type}
    (p : List Nat → Except String (List Entity)) (name : String) (st : KVState)
    (S : Storage σ) (s s' : σ) (m : String)
    (habs : kvLookup ("key/" ++ name) st = none)
    (hfail : S.get ("key/" ++ name) s = (.error m, s')) :
    pathKeyRead kvStorage p name st = (.noResp, st)
    ∧ (∀ d : ReadData, (Outcome.noResp : Outcome ReadData) ≠ .ok d)
    ∧ (∀ m' : String, (Outcome.noResp : Outcome ReadData) ≠ .fault m'
        ∧ (Outcome.noResp : Outcome ReadData) ≠ .errResp m')
    ∧ pathKeyRead S p name s = (.fault m, s') := by
  refine ⟨?_, fun d h => Outcome.noConfusion h,
    fun m' => ⟨fun h => Outcome.noConfusion h, fun h => Outcome.noConfusion h⟩, ?_⟩
  · simp [pathKeyRead, key, kvStorage, habs]
  · simp [pathKeyRead, key, hfail]

theorem read_absent_vs_fault_check :
    pathKeyRead kvStorage (fun _ => .ok [testEntityA]) "k" [] = (.noResp, [])
    ∧ (∀ d : ReadData, (Outcome.noResp : Outcome ReadData) ≠ .ok d)
    ∧ (∀ m' : String, (Outcome.noResp : Outcome ReadData) ≠ .fault m'
        ∧ (Outcome.noResp : Outcome ReadData) ≠ .errResp m')
    ∧ pathKeyRead (failingStorage "io down") (fun _ => .ok [testEntityA]) "k" ()
        = (.fault "io down", ()) :=
  read_absent_vs_fault (fun _ => .ok [testEntityA]) "k" []
    (failingStorage "io down") () () "io down" rfl rfl

theorem filter_ne_eq_self_of_lookup_none (k : String) (st : KVState)
    (h : kvLookup k st = none) : st.filter (fun p => p.1 != k) = st := by
  rw [List.filter_eq_self]
  intro p hp
  have hf : st.find? (fun p => p.1 == k) = none := by
    cases hfind : st.find? (fun p => p.1 == k) with
    | none => rfl
    | some v => simp [kvLookup, hfind] at h
  have := List.find?_eq_none.mp hf p hp
  simpa using this

theorem filter_ne_idem (k : String) (st : KVState) :
    (st.filter (fun p => p.1 != k)).filter (fun p => p.1 != k)
      = st.filter (fun p => p.1 != k) := by
  rw [List.filter_eq_self]
  intro p hp
  exact (List.mem_filter.mp hp).2

/-- C9: delete is idempotent on the concrete key-value collaborator —
deleting a name with no record succeeds with the no-error outcome and
leaves the store byte-for-byte unchanged, and after any delete a second
delete of the same name again succeeds and changes nothing. -/
theorem delete_idempotent (name : String) (st : KVState)
    (habs : kvLookup ("key/" ++ name) st = none) :
    pathKeyDelete kvStorage name st = (.noResp, st)
    ∧ (∀ st₀ : KVState,
        (pathKeyDelete kvStorage name st₀).1 = .noResp
        ∧ pathKeyDelete kvStorage name (pathKeyDelete kvStorage name st₀).2
            = (.noResp, (pathKeyDelete kvStorage name st₀).2)) := by
  constructor
  · simp [pathKeyDelete, kvStorage, filter_ne_eq_self_of_lookup_none _ _ habs]
  · intro st₀
    refine ⟨by simp [pathKeyDelete, kvStorage], ?_⟩
    simp [pathKeyDelete, kvStorage, filter_ne_idem]

theorem delete_idempotent_check :
    pathKeyDelete kvStorage "k" [] = (.noResp, [])
    ∧ (∀ st₀ : KVState,
        (pathKeyDelete kvStorage "k" st₀).1 = .noResp
        ∧ pathKeyDelete kvStorage "k" (pathKeyDelete kvStorage "k" st₀).2
            = (.noResp, (pathKeyDelete kvStorage "k" st₀).2)) :=
  delete_idempotent "k" [] rfl

/-- C10: both paths index element 0 of the parsed entity list without a
bounds check.  If the parser ever returned an empty list under a nil
error, `backend.entity` — and hence the read handler — and the import
branch of the create handler would hit an out-of-range access modelled
as the panic outcome, not a returned error; whenever a successful parse
yields at least one entity the access is in bounds and no panic occurs. -/
theorem index_zero_unchecked {σ : Type} (S : Storage σ)
    (newEntity : String → String → String → Int → Except String Entity)
    (serializePrivateFresh : Entity → Except String (List Nat))
    (p : List Nat → Except String (List Entity))
    (q : String → Except String (List Entity))
    (entry : keyEntry) (a : CreateArgs) (st : σ) (stk : KVState) (name : String)
    (hp : p entry.SerializedKey = .ok [])
    (hq : q a.key = .ok [])
    (hgen : a.generate = false) (hk : a.key ≠ "")
    (hlook : kvLookup ("key/" ++ name) stk = some (.json entry)) :
    entity p entry = .panicked
    ∧ pathKeyRead kvStorage p name stk = (.panicked, stk)
    ∧ pathKeyCreate S newEntity serializePrivateFresh q a st
        = (.panicked, st, [.parseKeyRing])
    ∧ (∀ (p' : List Nat → Except String (List Entity)) (e0 : Entity) (rest : List Entity),
        p' entry.SerializedKey = .ok (e0 :: rest) → entity p' entry ≠ .panicked) := by
  refine ⟨by simp [entity, hp], ?_, ?_, ?_⟩
  · simp [pathKeyRead, key, kvStorage, hlook, decodeJSON, entity, hp]
  · simp [pathKeyCreate, hgen, hk, hq]
  · intro p' e0 rest hp' hcontra
    simp [entity, hp'] at hcontra

theorem index_zero_unchecked_check :
    entity (fun _ => .ok []) testEntry = .panicked
    ∧ pathKeyRead kvStorage (fun _ => .ok []) "k"
        [("key/k", StoredValue.json testEntry)]
      = (.panicked, [("key/k", StoredValue.json testEntry)])
    ∧ pathKeyCreate kvStorage genOracle serOracle (fun _ => .ok [])
        (argsImport "armor") []
      = (.panicked, [], [.parseKeyRing])
    ∧ (∀ (p' : List Nat → Except String (List Entity)) (e0 : Entity) (rest : List Entity),
        p' testEntry.SerializedKey = .ok (e0 :: rest) → entity p' testEntry ≠ .panicked) :=
  index_zero_unchecked kvStorage genOracle serOracle (fun _ => .ok [])
    (fun _ => .ok []) testEntry (argsImport "armor") []
    [("key/k", StoredValue.json testEntry)] "k"
    rfl rfl rfl (by decide) rfl

end VaultGpg
